import Mathlib

/-!
Shallow embedding of the interactive satellite-map core
(`SatelliteMap` component and its helpers).  Numbers are modelled as
rationals; node/link collections as lists; the JS `Set` used for
connectivity as an insertion-ordered duplicate-free list.
-/

/-- Generic list concatenation-map (JS `Array.prototype.flatMap` /
the accumulation of `elements.push` calls across a loop). -/
def flatMapL {α β : Type} (l : List α) (f : α → List β) : List β :=
  match l with
  | [] => []
  | a :: rest => f a ++ flatMapL rest f

/-- helpers.js `clamp(value, min, max) = Math.min(Math.max(value, min), max)`. -/
def clamp (value lo hi : ℚ) : ℚ := min (max value lo) hi

/-- SatelliteMap.js `mapWidth`. -/
def mapWidth : ℚ := 800

/-- SatelliteMap.js `mapHeight`. -/
def mapHeight : ℚ := 400

/-- SatelliteMap.js `originalImageWidth`. -/
def originalImageWidth : ℚ := 5400

/-- SatelliteMap.js `originalImageHeight`. -/
def originalImageHeight : ℚ := 2700

/-- SatelliteMap.js `MAX_SCALE = Math.max(originalImageWidth / mapWidth, originalImageHeight / mapHeight)`. -/
def MAX_SCALE : ℚ := max (originalImageWidth / mapWidth) (originalImageHeight / mapHeight)

/-- SatelliteMap.js `MIN_SCALE = 1`. -/
def MIN_SCALE : ℚ := 1

/-- The `transform` state `{ x, y, scale }` (pan offset and zoom scale). -/
structure Transform where
  x : ℚ
  y : ℚ
  scale : ℚ
  deriving DecidableEq

/-- Initial transform state `{ x: 0, y: 0, scale: 1 }`. -/
def initialTransform : Transform := ⟨0, 0, 1⟩

/-- `handleMouseMove` while dragging: the target pan `(newX, newY)` is
clamped to `[-mapWidth(scale-1), 0] × [-mapHeight(scale-1), 0]`;
`scale` is unchanged. -/
def panBy (t : Transform) (newX newY : ℚ) : Transform :=
  let maxX := mapWidth * (t.scale - 1)
  let maxY := mapHeight * (t.scale - 1)
  { t with x := clamp newX (-maxX) 0, y := clamp newY (-maxY) 0 }

/-- `handleWheel` with the wheel factor abstracted: clamp the new scale,
return unchanged when already saturated in the direction of motion,
otherwise recompute pan around the map-space point under the cursor and
clamp it. -/
def zoomAt (t : Transform) (mouseX mouseY factor : ℚ) : Transform :=
  let newScale := clamp (t.scale * factor) MIN_SCALE MAX_SCALE
  if (t.scale = MAX_SCALE ∧ factor > 1) ∨ (t.scale = MIN_SCALE ∧ factor < 1) then t
  else
    let zoomPointX := (mouseX - t.x) / t.scale
    let zoomPointY := (mouseY - t.y) / t.scale
    let newX := mouseX - zoomPointX * newScale
    let newY := mouseY - zoomPointY * newScale
    let maxX := mapWidth * (newScale - 1)
    let maxY := mapHeight * (newScale - 1)
    { scale := newScale, x := clamp newX (-maxX) 0, y := clamp newY (-maxY) 0 }

/-- `handleWheel`'s wheel-to-factor rule: `e.deltaY > 0 ? 0.9 : 1.1`. -/
def handleWheel (t : Transform) (deltaY mouseX mouseY : ℚ) : Transform :=
  zoomAt t mouseX mouseY (if deltaY > 0 then 0.9 else 1.1)

/-- A user navigation event: a drag move (`handleMouseMove`) or a wheel
zoom (`handleWheel`, factor abstracted). -/
inductive MapOp where
  | pan (newX newY : ℚ)
  | zoom (mouseX mouseY factor : ℚ)

/-- Apply one navigation event to the transform state. -/
def applyOp (t : Transform) (op : MapOp) : Transform :=
  match op with
  | .pan nx ny => panBy t nx ny
  | .zoom mx my f => zoomAt t mx my f

/-- The pan/scale invariant: pan offsets stay in the clamp ranges and the
scale stays in `[MIN_SCALE, MAX_SCALE]`. -/
def transformInvariant (t : Transform) : Prop :=
  -(mapWidth * (t.scale - 1)) ≤ t.x ∧ t.x ≤ 0 ∧
  -(mapHeight * (t.scale - 1)) ≤ t.y ∧ t.y ≤ 0 ∧
  MIN_SCALE ≤ t.scale ∧ t.scale ≤ MAX_SCALE

/-- A node record `{ name, lat, lon }`. -/
structure MapNode where
  name : String
  lat : ℚ
  lon : ℚ
  deriving DecidableEq

/-- helpers.js `getNodeCoordinates(node, mapWidth, mapHeight)`:
equirectangular projection. -/
def getNodeCoordinates (node : MapNode) (w h : ℚ) : ℚ × ℚ :=
  ((node.lon + 180) / 360 * w, (90 - node.lat) / 180 * h)

/-- JS `s.startsWith(p)`: the first `p.length` characters of `s` are `p`. -/
def strStartsWith (s p : String) : Bool :=
  s.toList.take p.toList.length == p.toList

/-- The plane-id token of a name: JS `name.split('_')[0].substring(1)`
(characters before the first underscore, with the first character removed). -/
def planeToken (s : String) : List Char :=
  (s.toList.takeWhile (fun c => !(c == '_'))).drop 1

/-- Leading decimal digits of a character list. -/
def takeDigits (l : List Char) : List Char := l.takeWhile Char.isDigit

/-- Numeric value of a digit list (most significant first). -/
def digitsToNat (l : List Char) : Nat :=
  l.foldl (fun acc c => acc * 10 + (c.toNat - '0'.toNat)) 0

/-- JS `parseInt` on a character list: skip spaces, optional sign, then
leading decimal digits; `none` models `NaN` (no digits consumed). -/
def parseIntOpt (l : List Char) : Option Int :=
  match l.dropWhile (fun c => c == ' ') with
  | '-' :: rest =>
    if (takeDigits rest).isEmpty then none else some (-(digitsToNat (takeDigits rest) : Int))
  | '+' :: rest =>
    if (takeDigits rest).isEmpty then none else some ((digitsToNat (takeDigits rest) : Int))
  | other =>
    if (takeDigits other).isEmpty then none else some ((digitsToNat (takeDigits other) : Int))

/-- The parsed plane id of a node name, `none` modelling `NaN`. -/
def planeId (s : String) : Option Int := parseIntOpt (planeToken s)

/-- helpers.js `areInSamePlane(sat1Name, sat2Name)`: `parseInt` both
plane tokens and compare with `===` (`NaN === x` is always false, hence
the `none` cases return `false`). -/
def areInSamePlane (sat1Name sat2Name : String) : Bool :=
  match planeId sat1Name, planeId sat2Name with
  | some ring1, some ring2 => ring1 == ring2
  | _, _ => false

/-- A `satellite_links` record `{ node1_name, node2_name, up }`. -/
structure SatLink where
  node1_name : String
  node2_name : String
  up : Bool
  deriving DecidableEq

/-- A member of a `ground_uplinks[i].uplinks` array: `{ sat_node }`. -/
structure Uplink where
  sat_node : String
  deriving DecidableEq

/-- A `ground_uplinks` record `{ ground_node, uplinks }`. -/
structure UplinkGroup where
  ground_node : String
  uplinks : List Uplink
  deriving DecidableEq

/-- The data snapshot held in component state. -/
structure Snapshot where
  satellites : List MapNode
  groundStations : List MapNode
  vessels : List MapNode
  satelliteLinks : List SatLink
  groundUplinks : List UplinkGroup
  deriving DecidableEq

/-- `findNode(name)`: first match in satellites, then ground stations,
then vessels (JS `||` chain of `Array.find`). -/
def findNode (s : Snapshot) (name : String) : Option MapNode :=
  ((s.satellites.find? (fun nd => nd.name == name)).orElse (fun _ =>
    (s.groundStations.find? (fun nd => nd.name == name)).orElse (fun _ =>
      s.vessels.find? (fun nd => nd.name == name))))

/-- JS `Set.add`: append if not already present (insertion order kept). -/
def addUnique (l : List String) (x : String) : List String :=
  if x ∈ l then l else l ++ [x]

/-- One step of the `satelliteLinks.forEach` loop in `getConnectedNodes`. -/
def satLinkStep (nodeName : String) (conns : List String) (link : SatLink) : List String :=
  if link.up then
    if link.node1_name = nodeName then addUnique conns link.node2_name
    else if link.node2_name = nodeName then addUnique conns link.node1_name
    else conns
  else conns

/-- One step of the `groundUplinks.forEach` loop in `getConnectedNodes`. -/
def uplinkStep (nodeName : String) (conns : List String) (station : UplinkGroup) : List String :=
  if station.ground_node = nodeName then
    station.uplinks.foldl (fun cs u => addUnique cs u.sat_node) conns
  else
    station.uplinks.foldl
      (fun cs u => if u.sat_node = nodeName then addUnique cs station.ground_node else cs) conns

/-- `getConnectedNodes(nodeName)`: the satellite-link pass followed by the
ground-uplink pass, both accumulating into one set. -/
def getConnectedNodes (s : Snapshot) (nodeName : String) : List String :=
  s.groundUplinks.foldl (uplinkStep nodeName)
    (s.satelliteLinks.foldl (satLinkStep nodeName) [])

/-- One emitted `<line>` element, keeping the drawn attributes. -/
structure Segment where
  x1 : ℚ
  y1 : ℚ
  x2 : ℚ
  y2 : ℚ
  color : String
  opacity : ℚ
  strokeWidth : ℚ
  deriving DecidableEq

/-- `drawLink(node1Name, node2Name, color, opacity, key)`: resolve both
endpoints (emitting nothing if either is missing), project, and split in
two at the antimeridian when `|x2 - x1| > mapWidth / 2`. -/
def drawLink (s : Snapshot) (scale : ℚ) (node1Name node2Name : String)
    (color : String) (opacity : ℚ) : List Segment :=
  match findNode s node1Name, findNode s node2Name with
  | some node1, some node2 =>
    let x1 := (getNodeCoordinates node1 mapWidth mapHeight).1
    let y1 := (getNodeCoordinates node1 mapWidth mapHeight).2
    let x2 := (getNodeCoordinates node2 mapWidth mapHeight).1
    let y2 := (getNodeCoordinates node2 mapWidth mapHeight).2
    let dx := x2 - x1
    let strokeWidth := 2 / scale
    if |dx| > mapWidth / 2 then
      if x1 < x2 then
        [⟨x1, y1, x2 - mapWidth, y2, color, opacity, strokeWidth⟩,
         ⟨x1 + mapWidth, y1, x2, y2, color, opacity, strokeWidth⟩]
      else
        [⟨x1 - mapWidth, y1, x2, y2, color, opacity, strokeWidth⟩,
         ⟨x1, y1, x2 + mapWidth, y2, color, opacity, strokeWidth⟩]
    else
      [⟨x1, y1, x2, y2, color, opacity, strokeWidth⟩]
  | _, _ => []

/-- The three link-visibility checkboxes. -/
structure Toggles where
  showInPlaneLinks : Bool
  showCrossPlaneLinks : Bool
  showGroundLinks : Bool
  deriving DecidableEq

/-- `renderLinks()`: hovered branch (connections of the hovered node at
full opacity), else the satellite-link toggles branch followed by the
ground-uplink toggle branch, both at opacity 0.5. -/
def renderLinks (s : Snapshot) (tg : Toggles) (hoveredNode : Option String)
    (scale : ℚ) : List Segment :=
  match hoveredNode with
  | some hovered =>
    flatMapL (getConnectedNodes s hovered) (fun otherName =>
      let isGroundLink := strStartsWith hovered "G_" || strStartsWith hovered "V_" ||
                          strStartsWith otherName "G_" || strStartsWith otherName "V_"
      let color := if isGroundLink then "#ef4444"
                   else if areInSamePlane hovered otherName then "#22c55e" else "#1d4ed8"
      drawLink s scale hovered otherName color 1)
  | none =>
    (if tg.showInPlaneLinks || tg.showCrossPlaneLinks then
      flatMapL s.satelliteLinks (fun link =>
        if link.up then
          let inPlane := areInSamePlane link.node1_name link.node2_name
          if (inPlane && tg.showInPlaneLinks) || (!inPlane && tg.showCrossPlaneLinks) then
            drawLink s scale link.node1_name link.node2_name
              (if inPlane then "#22c55e" else "#1d4ed8") 0.5
          else []
        else [])
    else []) ++
    (if tg.showGroundLinks then
      flatMapL s.groundUplinks (fun station =>
        flatMapL station.uplinks (fun uplink =>
          drawLink s scale station.ground_node uplink.sat_node "#ef4444" 0.5))
    else [])

/-- The spec's uniform link colour rule: ground/vessel endpoint makes the
link ground-class red, otherwise same plane id makes it in-plane green,
otherwise cross-plane blue. -/
def linkColorRule (n1 n2 : String) : String :=
  if strStartsWith n1 "G_" || strStartsWith n1 "V_" ||
     strStartsWith n2 "G_" || strStartsWith n2 "V_" then "#ef4444"
  else if areInSamePlane n1 n2 then "#22c55e" else "#1d4ed8"

/-- `renderLinks` with every `drawLink` colour argument replaced by the
uniform rule `linkColorRule` applied to that call's endpoints. -/
def renderLinksColored (s : Snapshot) (tg : Toggles) (hoveredNode : Option String)
    (scale : ℚ) : List Segment :=
  match hoveredNode with
  | some hovered =>
    flatMapL (getConnectedNodes s hovered) (fun otherName =>
      drawLink s scale hovered otherName (linkColorRule hovered otherName) 1)
  | none =>
    (if tg.showInPlaneLinks || tg.showCrossPlaneLinks then
      flatMapL s.satelliteLinks (fun link =>
        if link.up then
          let inPlane := areInSamePlane link.node1_name link.node2_name
          if (inPlane && tg.showInPlaneLinks) || (!inPlane && tg.showCrossPlaneLinks) then
            drawLink s scale link.node1_name link.node2_name
              (linkColorRule link.node1_name link.node2_name) 0.5
          else []
        else [])
    else []) ++
    (if tg.showGroundLinks then
      flatMapL s.groundUplinks (fun station =>
        flatMapL station.uplinks (fun uplink =>
          drawLink s scale station.ground_node uplink.sat_node
            (linkColorRule station.ground_node uplink.sat_node) 0.5))
    else [])

/-- Data-model well-formedness (spec section 3): satellite links join
orbital-category names (no ground/vessel name marker) and every uplink
group belongs to a ground- or vessel-category node. -/
def wellFormedSnapshot (s : Snapshot) : Prop :=
  (∀ l ∈ s.satelliteLinks,
    strStartsWith l.node1_name "G_" = false ∧ strStartsWith l.node1_name "V_" = false ∧
    strStartsWith l.node2_name "G_" = false ∧ strStartsWith l.node2_name "V_" = false) ∧
  (∀ g ∈ s.groundUplinks,
    strStartsWith g.ground_node "G_" = true ∨ strStartsWith g.ground_node "V_" = true)

/-- A concrete snapshot used to instantiate hypotheses of the theorems. -/
def sampleSnapshot : Snapshot :=
  { satellites := [⟨"R1_A", 90, 0⟩, ⟨"R1_B", 90, 36⟩, ⟨"R2_E", 0, 170⟩, ⟨"R1_W", 0, -170⟩]
    groundStations := [⟨"G_X", 0, 0⟩]
    vessels := [⟨"V_S", 0, 36⟩]
    satelliteLinks := [⟨"R1_A", "R1_B", true⟩, ⟨"R1_W", "R2_E", true⟩, ⟨"R1_A", "R2_E", false⟩]
    groundUplinks := [⟨"G_X", [⟨"R1_A"⟩]⟩] }

theorem clamp_le_hi (v lo hi : ℚ) : clamp v lo hi ≤ hi := min_le_right _ _

theorem lo_le_clamp (v lo hi : ℚ) (h : lo ≤ hi) : lo ≤ clamp v lo hi :=
  le_min (le_max_right v lo) h

theorem clamp_eq_of_mem (v lo hi : ℚ) (h1 : lo ≤ v) (h2 : v ≤ hi) :
    clamp v lo hi = v := by
  unfold clamp
  rw [max_eq_left h1, min_eq_left h2]

theorem MAX_SCALE_eq : MAX_SCALE = 27 / 4 := by
  norm_num [MAX_SCALE, originalImageWidth, originalImageHeight, mapWidth, mapHeight]

theorem MIN_le_MAX : MIN_SCALE ≤ MAX_SCALE := by
  rw [MAX_SCALE_eq]
  norm_num [MIN_SCALE]

theorem invariant_applyOp (t : Transform) (op : MapOp)
    (h : transformInvariant t) : transformInvariant (applyOp t op) := by
  obtain ⟨hx1, hx2, hy1, hy2, hs1, hs2⟩ := h
  have hs : (1 : ℚ) ≤ t.scale := by simpa [MIN_SCALE] using hs1
  cases op with
  | pan nx ny =>
    have hw : (0 : ℚ) ≤ mapWidth * (t.scale - 1) :=
      mul_nonneg (by norm_num [mapWidth]) (by linarith)
    have hh : (0 : ℚ) ≤ mapHeight * (t.scale - 1) :=
      mul_nonneg (by norm_num [mapHeight]) (by linarith)
    simp only [applyOp, panBy, transformInvariant]
    exact ⟨lo_le_clamp _ _ _ (by linarith), clamp_le_hi _ _ _,
           lo_le_clamp _ _ _ (by linarith), clamp_le_hi _ _ _, hs1, hs2⟩
  | zoom mx my f =>
    simp only [applyOp, zoomAt]
    split
    · exact ⟨hx1, hx2, hy1, hy2, hs1, hs2⟩
    · have hns1 : MIN_SCALE ≤ clamp (t.scale * f) MIN_SCALE MAX_SCALE :=
        lo_le_clamp _ _ _ MIN_le_MAX
      have hns1q : (1 : ℚ) ≤ clamp (t.scale * f) MIN_SCALE MAX_SCALE := by
        simpa [MIN_SCALE] using hns1
      have hns2 : clamp (t.scale * f) MIN_SCALE MAX_SCALE ≤ MAX_SCALE :=
        clamp_le_hi _ _ _
      have hw : (0 : ℚ) ≤ mapWidth * (clamp (t.scale * f) MIN_SCALE MAX_SCALE - 1) :=
        mul_nonneg (by norm_num [mapWidth]) (by linarith)
      have hh : (0 : ℚ) ≤ mapHeight * (clamp (t.scale * f) MIN_SCALE MAX_SCALE - 1) :=
        mul_nonneg (by norm_num [mapHeight]) (by linarith)
      simp only [transformInvariant]
      exact ⟨lo_le_clamp _ _ _ (by linarith), clamp_le_hi _ _ _,
             lo_le_clamp _ _ _ (by linarith), clamp_le_hi _ _ _, hns1, hns2⟩

/-- C1: starting from the initial transform, after every sequence of
panBy (drag-move) and zoomAt (wheel) operations the pan offsets lie in
the clamp ranges determined by the current scale, and the scale lies in
`[MIN_SCALE, MAX_SCALE]`. -/
theorem c1_pan_zoom_clamp_invariant (ops : List MapOp) :
    transformInvariant (ops.foldl applyOp initialTransform) := by
  have h0 : transformInvariant initialTransform := by
    norm_num [transformInvariant, initialTransform, mapWidth, mapHeight,
      MIN_SCALE, MAX_SCALE_eq]
  suffices hgen : ∀ (l : List MapOp) (t : Transform),
      transformInvariant t → transformInvariant (l.foldl applyOp t) by
    exact hgen ops _ h0
  intro l
  induction l with
  | nil => intro t ht; simpa using ht
  | cons op rest ih => intro t ht; exact ih _ (invariant_applyOp t op ht)

/-- C9: zoomAt with factor 1 leaves the transform unchanged, for every
state satisfying the pan/scale invariant and every cursor position. -/
theorem c9_zoom_factor_one_identity (t : Transform) (mouseX mouseY : ℚ)
    (h : transformInvariant t) : zoomAt t mouseX mouseY 1 = t := by
  obtain ⟨hx1, hx2, hy1, hy2, hs1, hs2⟩ := h
  have hs : (1 : ℚ) ≤ t.scale := by simpa [MIN_SCALE] using hs1
  have hsne : t.scale ≠ 0 := by
    exact ne_of_gt (by linarith)
  simp only [zoomAt]
  rw [if_neg (by rintro (⟨-, hlt⟩ | ⟨-, hlt⟩) <;> exact absurd hlt (by norm_num))]
  have hns : clamp (t.scale * 1) MIN_SCALE MAX_SCALE = t.scale := by
    rw [mul_one]
    exact clamp_eq_of_mem _ _ _ hs1 hs2
  rw [hns]
  have hx : mouseX - (mouseX - t.x) / t.scale * t.scale = t.x := by
    field_simp
  have hy : mouseY - (mouseY - t.y) / t.scale * t.scale = t.y := by
    field_simp
  rw [hx, hy, clamp_eq_of_mem _ _ _ hx1 hx2, clamp_eq_of_mem _ _ _ hy1 hy2]

theorem c9_zoom_factor_one_identity_witness :
    transformInvariant ⟨0, 0, 1⟩ ∧ zoomAt ⟨0, 0, 1⟩ 3 4 1 = ⟨0, 0, 1⟩ := by
  have h : transformInvariant ⟨0, 0, 1⟩ := by
    norm_num [transformInvariant, mapWidth, mapHeight, MIN_SCALE, MAX_SCALE_eq]
  exact ⟨h, c9_zoom_factor_one_identity _ 3 4 h⟩

/-- C2 (amended): if the scale change is not saturated at a bound and the
recomputed pan offsets already lie inside the pan-clamp ranges, then the
map-space point under the cursor is preserved exactly by zoomAt. -/
theorem c2_zoom_anchor_preserved (t : Transform) (mouseX mouseY factor : ℚ)
    (hinv : transformInvariant t)
    (hlo : MIN_SCALE ≤ t.scale * factor) (hhi : t.scale * factor ≤ MAX_SCALE)
    (hx1 : -(mapWidth * (t.scale * factor - 1)) ≤
      mouseX - (mouseX - t.x) / t.scale * (t.scale * factor))
    (hx2 : mouseX - (mouseX - t.x) / t.scale * (t.scale * factor) ≤ 0)
    (hy1 : -(mapHeight * (t.scale * factor - 1)) ≤
      mouseY - (mouseY - t.y) / t.scale * (t.scale * factor))
    (hy2 : mouseY - (mouseY - t.y) / t.scale * (t.scale * factor) ≤ 0) :
    (mouseX - (zoomAt t mouseX mouseY factor).x) / (zoomAt t mouseX mouseY factor).scale
      = (mouseX - t.x) / t.scale ∧
    (mouseY - (zoomAt t mouseX mouseY factor).y) / (zoomAt t mouseX mouseY factor).scale
      = (mouseY - t.y) / t.scale := by
  obtain ⟨px1, px2, py1, py2, hs1, hs2⟩ := hinv
  have hs : (1 : ℚ) ≤ t.scale := by simpa [MIN_SCALE] using hs1
  have hnsq : (1 : ℚ) ≤ t.scale * factor := by simpa [MIN_SCALE] using hlo
  have hnsne : t.scale * factor ≠ 0 := ne_of_gt (by linarith)
  have hguard : ¬((t.scale = MAX_SCALE ∧ factor > 1) ∨
      (t.scale = MIN_SCALE ∧ factor < 1)) := by
    rintro (⟨heq, hf⟩ | ⟨heq, hf⟩)
    · rw [heq] at hhi
      have hMpos : (0 : ℚ) < MAX_SCALE := by rw [MAX_SCALE_eq]; norm_num
      nlinarith [mul_pos hMpos (show (0 : ℚ) < factor - 1 by linarith)]
    · rw [heq] at hnsq
      simp only [MIN_SCALE] at hnsq
      linarith
  simp only [zoomAt]
  rw [if_neg hguard, clamp_eq_of_mem _ _ _ hlo hhi,
    clamp_eq_of_mem _ _ _ hx1 hx2, clamp_eq_of_mem _ _ _ hy1 hy2]
  constructor
  · have hrw : mouseX - (mouseX - (mouseX - t.x) / t.scale * (t.scale * factor))
        = (mouseX - t.x) / t.scale * (t.scale * factor) := by ring
    rw [hrw]
    exact mul_div_cancel_right₀ _ hnsne
  · have hrw : mouseY - (mouseY - (mouseY - t.y) / t.scale * (t.scale * factor))
        = (mouseY - t.y) / t.scale * (t.scale * factor) := by ring
    rw [hrw]
    exact mul_div_cancel_right₀ _ hnsne

theorem c2_zoom_anchor_preserved_witness :
    transformInvariant ⟨0, 0, 2⟩ ∧
    (400 - (zoomAt ⟨0, 0, 2⟩ 400 200 (11/10)).x) / (zoomAt ⟨0, 0, 2⟩ 400 200 (11/10)).scale
      = (400 - (0 : ℚ)) / 2 := by
  have hinv : transformInvariant ⟨0, 0, 2⟩ := by
    norm_num [transformInvariant, mapWidth, mapHeight, MIN_SCALE, MAX_SCALE_eq]
  refine ⟨hinv, ?_⟩
  have h := (c2_zoom_anchor_preserved ⟨0, 0, 2⟩ 400 200 (11/10) hinv
    (by norm_num [MIN_SCALE]) (by rw [MAX_SCALE_eq]; norm_num)
    (by norm_num [mapWidth]) (by norm_num)
    (by norm_num [mapHeight]) (by norm_num)).1
  simpa using h

/-- C2 (counterexample): an unsaturated zoom-out at an edge-clamped state
moves the map-space point under the cursor, because the recomputed pan is
clamped back to 0. -/
theorem c2_zoom_anchor_counterexample :
    transformInvariant ⟨0, 0, 6⟩ ∧
    MIN_SCALE ≤ (6 : ℚ) * (9/10) ∧ (6 : ℚ) * (9/10) ≤ MAX_SCALE ∧
    (800 - (zoomAt ⟨0, 0, 6⟩ 800 0 (9/10)).x) / (zoomAt ⟨0, 0, 6⟩ 800 0 (9/10)).scale
      ≠ (800 - (0 : ℚ)) / 6 := by
  refine ⟨?_, ?_, ?_, ?_⟩
  · norm_num [transformInvariant, mapWidth, mapHeight, MIN_SCALE, MAX_SCALE_eq]
  · norm_num [MIN_SCALE]
  · rw [MAX_SCALE_eq]; norm_num
  · have hz : zoomAt ⟨0, 0, 6⟩ 800 0 (9/10) = ⟨0, 0, 27/5⟩ := by
      norm_num [zoomAt, clamp, MAX_SCALE_eq, MIN_SCALE, mapWidth, mapHeight,
        min_def, max_def]
    rw [hz]
    norm_num

/-- C8: for in-range latitudes/longitudes the projection is strictly
increasing in longitude, strictly decreasing in latitude, and maps the
three anchor points as specified; it is a total function on ℚ. -/
theorem c8_projection_properties (w h : ℚ) (nm : String) (hw : 0 < w) (hh : 0 < h) :
    (∀ la lo1 lo2 : ℚ, -180 ≤ lo1 → lo1 < lo2 → lo2 ≤ 180 →
      (getNodeCoordinates ⟨nm, la, lo1⟩ w h).1 < (getNodeCoordinates ⟨nm, la, lo2⟩ w h).1) ∧
    (∀ lo la1 la2 : ℚ, -90 ≤ la1 → la1 < la2 → la2 ≤ 90 →
      (getNodeCoordinates ⟨nm, la2, lo⟩ w h).2 < (getNodeCoordinates ⟨nm, la1, lo⟩ w h).2) ∧
    getNodeCoordinates ⟨nm, 0, -180⟩ w h = (0, h / 2) ∧
    getNodeCoordinates ⟨nm, 0, 180⟩ w h = (w, h / 2) ∧
    getNodeCoordinates ⟨nm, 90, 0⟩ w h = (w / 2, 0) := by
  refine ⟨?_, ?_, ?_, ?_, ?_⟩
  · intro la lo1 lo2 hr1 hlt hr2
    simp only [getNodeCoordinates]
    have key : (0 : ℚ) < ((lo2 + 180) / 360 - (lo1 + 180) / 360) * w :=
      mul_pos (by linarith) hw
    nlinarith [key]
  · intro lo la1 la2 hr1 hlt hr2
    simp only [getNodeCoordinates]
    have key : (0 : ℚ) < ((90 - la1) / 180 - (90 - la2) / 180) * h :=
      mul_pos (by linarith) hh
    nlinarith [key]
  · simp only [getNodeCoordinates, Prod.mk.injEq]
    constructor <;> ring
  · simp only [getNodeCoordinates, Prod.mk.injEq]
    constructor <;> ring
  · simp only [getNodeCoordinates, Prod.mk.injEq]
    constructor <;> ring

theorem c8_projection_properties_witness :
    (0 : ℚ) < 800 ∧ (0 : ℚ) < 400 ∧
    getNodeCoordinates ⟨"N", 0, -180⟩ 800 400 = (0, 400 / 2) :=
  ⟨by norm_num, by norm_num,
    (c8_projection_properties 800 400 "N" (by norm_num) (by norm_num)).2.2.1⟩

theorem findNode_eq_none_of_absent (s : Snapshot) (n : String)
    (h : ∀ nd ∈ s.satellites ++ s.groundStations ++ s.vessels, nd.name ≠ n) :
    findNode s n = none := by
  have h1 : s.satellites.find? (fun nd => nd.name == n) = none := by
    rw [List.find?_eq_none]
    intro x hx
    simpa using h x (by simp [hx])
  have h2 : s.groundStations.find? (fun nd => nd.name == n) = none := by
    rw [List.find?_eq_none]
    intro x hx
    simpa using h x (by simp [hx])
  have h3 : s.vessels.find? (fun nd => nd.name == n) = none := by
    rw [List.find?_eq_none]
    intro x hx
    simpa using h x (by simp [hx])
  simp [findNode, h1, h2, h3, Option.orElse]

/-- C7: a drawLink call in which either endpoint name is absent from all
three node collections emits the empty segment list (and is total, so no
error is raised). -/
theorem c7_drawLink_missing_endpoint (s : Snapshot) (scale : ℚ) (n1 n2 : String)
    (color : String) (opacity : ℚ)
    (h : (∀ nd ∈ s.satellites ++ s.groundStations ++ s.vessels, nd.name ≠ n1) ∨
         (∀ nd ∈ s.satellites ++ s.groundStations ++ s.vessels, nd.name ≠ n2)) :
    drawLink s scale n1 n2 color opacity = [] := by
  rcases h with h | h
  · simp [drawLink, findNode_eq_none_of_absent s n1 h]
  · cases hf : findNode s n1 with
    | none => simp [drawLink, hf]
    | some nd => simp [drawLink, hf, findNode_eq_none_of_absent s n2 h]

theorem c7_drawLink_missing_endpoint_witness :
    (∀ nd ∈ sampleSnapshot.satellites ++ sampleSnapshot.groundStations ++
        sampleSnapshot.vessels, nd.name ≠ "R9_ZZ") ∧
    drawLink sampleSnapshot 1 "R1_A" "R9_ZZ" "#ef4444" 1 = [] := by
  have h : ∀ nd ∈ sampleSnapshot.satellites ++ sampleSnapshot.groundStations ++
      sampleSnapshot.vessels, nd.name ≠ "R9_ZZ" := by decide
  exact ⟨h, c7_drawLink_missing_endpoint sampleSnapshot 1 "R1_A" "R9_ZZ"
    "#ef4444" 1 (Or.inr h)⟩

/-- C3: when both endpoints resolve, drawLink emits the two wrapped
segments exactly as the claim states when the projected x gap exceeds
half the map width (by direction of the gap), and a single direct
segment otherwise. -/
theorem c3_drawLink_wrap_rule (s : Snapshot) (scale : ℚ) (n1 n2 color : String)
    (opacity : ℚ) (node1 node2 : MapNode) (x1 y1 x2 y2 : ℚ)
    (h1 : findNode s n1 = some node1) (h2 : findNode s n2 = some node2)
    (hc1 : getNodeCoordinates node1 mapWidth mapHeight = (x1, y1))
    (hc2 : getNodeCoordinates node2 mapWidth mapHeight = (x2, y2)) :
    (|x2 - x1| > mapWidth / 2 → x1 < x2 →
      drawLink s scale n1 n2 color opacity =
        [⟨x1, y1, x2 - mapWidth, y2, color, opacity, 2 / scale⟩,
         ⟨x1 + mapWidth, y1, x2, y2, color, opacity, 2 / scale⟩]) ∧
    (|x2 - x1| > mapWidth / 2 → x1 ≥ x2 →
      drawLink s scale n1 n2 color opacity =
        [⟨x1 - mapWidth, y1, x2, y2, color, opacity, 2 / scale⟩,
         ⟨x1, y1, x2 + mapWidth, y2, color, opacity, 2 / scale⟩]) ∧
    (|x2 - x1| ≤ mapWidth / 2 →
      drawLink s scale n1 n2 color opacity = [⟨x1, y1, x2, y2, color, opacity, 2 / scale⟩]) := by
  simp only [drawLink, h1, h2, hc1, hc2]
  refine ⟨?_, ?_, ?_⟩
  · intro ha hb
    rw [if_pos ha, if_pos hb]
  · intro ha hb
    rw [if_pos ha, if_neg (not_lt.mpr hb)]
  · intro ha
    rw [if_neg (not_lt.mpr ha)]

theorem c3_drawLink_wrap_rule_witness :
    findNode sampleSnapshot "R1_W" = some ⟨"R1_W", 0, -170⟩ ∧
    drawLink sampleSnapshot 1 "R1_W" "R2_E" "#1d4ed8" 0.5 =
      [⟨200/9, 200, -200/9, 200, "#1d4ed8", 0.5, 2⟩,
       ⟨7400/9, 200, 7000/9, 200, "#1d4ed8", 0.5, 2⟩] := by
  have h1 : findNode sampleSnapshot "R1_W" = some ⟨"R1_W", 0, -170⟩ := by decide
  have h2 : findNode sampleSnapshot "R2_E" = some ⟨"R2_E", 0, 170⟩ := by decide
  have hc1 : getNodeCoordinates ⟨"R1_W", 0, -170⟩ mapWidth mapHeight = (200/9, 200) := by
    norm_num [getNodeCoordinates, mapWidth, mapHeight]
  have hc2 : getNodeCoordinates ⟨"R2_E", 0, 170⟩ mapWidth mapHeight = (7000/9, 200) := by
    norm_num [getNodeCoordinates, mapWidth, mapHeight]
  have h := (c3_drawLink_wrap_rule sampleSnapshot 1 "R1_W" "R2_E" "#1d4ed8" 0.5
    _ _ _ _ _ _ h1 h2 hc1 hc2).1 (by norm_num [mapWidth, lt_abs]) (by norm_num)
  refine ⟨h1, ?_⟩
  rw [h]
  norm_num [mapWidth]

/-- C10: areInSamePlane returns false whenever either plane token fails
to parse (the NaN case), in particular for every ground or vessel
name, and even for two identical such names. -/
theorem c10_same_plane_parse_failure (a b : String) :
    (planeId a = none ∨ planeId b = none → areInSamePlane a b = false) ∧
    (∀ rest : List Char,
      a.toList = 'G' :: '_' :: rest ∨ a.toList = 'V' :: '_' :: rest → planeId a = none) ∧
    areInSamePlane "G_X" "G_X" = false := by
  refine ⟨?_, ?_, by decide⟩
  · rintro (h | h)
    · simp [areInSamePlane, h]
    · cases hpa : planeId a <;> simp [areInSamePlane, hpa, h]
  · intro rest hrest
    have htok : planeToken a = [] := by
      rcases hrest with h | h <;>
        simp only [String.toList] at h <;>
        simp [planeToken, String.toList, h, List.takeWhile_cons]
    rw [planeId, htok]
    decide

theorem c10_same_plane_parse_failure_witness :
    planeId "V_S" = none ∧ areInSamePlane "V_S" "V_S" = false := by
  have h : planeId "V_S" = none := by decide
  exact ⟨h, (c10_same_plane_parse_failure "V_S" "V_S").1 (Or.inl h)⟩

theorem mem_addUnique (l : List String) (x m : String) :
    m ∈ addUnique l x ↔ m ∈ l ∨ m = x := by
  unfold addUnique
  split
  · rename_i hx
    constructor
    · exact Or.inl
    · rintro (h | rfl)
      · exact h
      · exact hx
  · simp [List.mem_append]

theorem mem_satLinkStep (n : String) (conns : List String) (link : SatLink) (m : String) :
    m ∈ satLinkStep n conns link ↔ m ∈ conns ∨
      (link.up = true ∧ ((link.node1_name = n ∧ link.node2_name = m) ∨
        (link.node2_name = n ∧ link.node1_name = m))) := by
  unfold satLinkStep
  split_ifs with hup h1 h2
  · rw [mem_addUnique]
    constructor
    · rintro (h | h)
      · exact Or.inl h
      · exact Or.inr ⟨hup, Or.inl ⟨h1, h.symm⟩⟩
    · rintro (h | ⟨-, (⟨-, h⟩ | ⟨h2n, h1m⟩)⟩)
      · exact Or.inl h
      · exact Or.inr h.symm
      · refine Or.inr ?_
        rw [← h1m, h1]
        exact h2n.symm
  · rw [mem_addUnique]
    constructor
    · rintro (h | h)
      · exact Or.inl h
      · exact Or.inr ⟨hup, Or.inr ⟨h2, h.symm⟩⟩
    · rintro (h | ⟨-, (⟨h1n, -⟩ | ⟨-, h1m⟩)⟩)
      · exact Or.inl h
      · exact absurd h1n h1
      · exact Or.inr h1m.symm
  · constructor
    · exact Or.inl
    · rintro (h | ⟨-, (⟨h1n, -⟩ | ⟨h2n, -⟩)⟩)
      · exact h
      · exact absurd h1n h1
      · exact absurd h2n h2
  · constructor
    · exact Or.inl
    · rintro (h | ⟨hupT, -⟩)
      · exact h
      · exact absurd hupT hup

theorem mem_satFold (n m : String) (links : List SatLink) (acc : List String) :
    m ∈ links.foldl (satLinkStep n) acc ↔ m ∈ acc ∨
      ∃ l ∈ links, l.up = true ∧ ((l.node1_name = n ∧ l.node2_name = m) ∨
        (l.node2_name = n ∧ l.node1_name = m)) := by
  induction links generalizing acc with
  | nil => simp
  | cons link rest ih =>
    simp only [List.foldl_cons]
    rw [ih, mem_satLinkStep]
    constructor
    · rintro ((h | h) | ⟨l, hl, hp⟩)
      · exact Or.inl h
      · exact Or.inr ⟨link, by simp, h⟩
      · exact Or.inr ⟨l, by simp [hl], hp⟩
    · rintro (h | ⟨l, hl, hp⟩)
      · exact Or.inl (Or.inl h)
      · rcases List.mem_cons.mp hl with rfl | hl2
        · exact Or.inl (Or.inr hp)
        · exact Or.inr ⟨l, hl2, hp⟩

theorem mem_addAllFold (m : String) (ups : List Uplink) (acc : List String) :
    m ∈ ups.foldl (fun cs u => addUnique cs u.sat_node) acc ↔
      m ∈ acc ∨ ∃ u ∈ ups, u.sat_node = m := by
  induction ups generalizing acc with
  | nil => simp
  | cons u rest ih =>
    simp only [List.foldl_cons]
    rw [ih, mem_addUnique]
    constructor
    · rintro ((h | h) | ⟨v, hv, hp⟩)
      · exact Or.inl h
      · exact Or.inr ⟨u, by simp, h.symm⟩
      · exact Or.inr ⟨v, by simp [hv], hp⟩
    · rintro (h | ⟨v, hv, hp⟩)
      · exact Or.inl (Or.inl h)
      · rcases List.mem_cons.mp hv with rfl | hv2
        · exact Or.inl (Or.inr hp.symm)
        · exact Or.inr ⟨v, hv2, hp⟩

theorem mem_matchFold (n g m : String) (ups : List Uplink) (acc : List String) :
    m ∈ ups.foldl (fun cs u => if u.sat_node = n then addUnique cs g else cs) acc ↔
      m ∈ acc ∨ (g = m ∧ ∃ u ∈ ups, u.sat_node = n) := by
  induction ups generalizing acc with
  | nil => simp
  | cons u rest ih =>
    simp only [List.foldl_cons]
    rw [ih]
    by_cases hu : u.sat_node = n
    · rw [if_pos hu, mem_addUnique]
      constructor
      · rintro ((h | h) | ⟨hg, v, hv, hp⟩)
        · exact Or.inl h
        · exact Or.inr ⟨h.symm, u, by simp, hu⟩
        · exact Or.inr ⟨hg, v, by simp [hv], hp⟩
      · rintro (h | ⟨hg, v, hv, hp⟩)
        · exact Or.inl (Or.inl h)
        · exact Or.inl (Or.inr hg.symm)
    · rw [if_neg hu]
      constructor
      · rintro (h | ⟨hg, v, hv, hp⟩)
        · exact Or.inl h
        · exact Or.inr ⟨hg, v, by simp [hv], hp⟩
      · rintro (h | ⟨hg, v, hv, hp⟩)
        · exact Or.inl h
        · rcases List.mem_cons.mp hv with rfl | hv2
          · exact absurd hp hu
          · exact Or.inr ⟨hg, v, hv2, hp⟩

theorem mem_uplinkStep (n : String) (conns : List String) (st : UplinkGroup) (m : String) :
    m ∈ uplinkStep n conns st ↔ m ∈ conns ∨
      (st.ground_node = n ∧ ∃ u ∈ st.uplinks, u.sat_node = m) ∨
      (st.ground_node = m ∧ ∃ u ∈ st.uplinks, u.sat_node = n) := by
  unfold uplinkStep
  split_ifs with hg
  · rw [mem_addAllFold]
    constructor
    · rintro (h | h)
      · exact Or.inl h
      · exact Or.inr (Or.inl ⟨hg, h⟩)
    · rintro (h | ⟨-, h⟩ | ⟨hgm, u, hu, hun⟩)
      · exact Or.inl h
      · exact Or.inr h
      · refine Or.inr ⟨u, hu, ?_⟩
        rw [hun, ← hg]
        exact hgm
  · rw [mem_matchFold]
    constructor
    · rintro (h | ⟨hgm, h⟩)
      · exact Or.inl h
      · exact Or.inr (Or.inr ⟨hgm, h⟩)
    · rintro (h | ⟨hgn, -⟩ | ⟨hgm, h⟩)
      · exact Or.inl h
      · exact absurd hgn hg
      · exact Or.inr ⟨hgm, h⟩

theorem mem_groundFold (n m : String) (groups : List UplinkGroup) (acc : List String) :
    m ∈ groups.foldl (uplinkStep n) acc ↔ m ∈ acc ∨
      ∃ g ∈ groups, (g.ground_node = n ∧ ∃ u ∈ g.uplinks, u.sat_node = m) ∨
        (g.ground_node = m ∧ ∃ u ∈ g.uplinks, u.sat_node = n) := by
  induction groups generalizing acc with
  | nil => simp
  | cons g rest ih =>
    simp only [List.foldl_cons]
    rw [ih, mem_uplinkStep]
    constructor
    · rintro ((h | h) | ⟨g2, hg2, hp⟩)
      · exact Or.inl h
      · exact Or.inr ⟨g, by simp, h⟩
      · exact Or.inr ⟨g2, by simp [hg2], hp⟩
    · rintro (h | ⟨g2, hg2, hp⟩)
      · exact Or.inl (Or.inl h)
      · rcases List.mem_cons.mp hg2 with rfl | hg3
        · exact Or.inl (Or.inr hp)
        · exact Or.inr ⟨g2, hg3, hp⟩

theorem flatMapL_filter_up {β : Type} (links : List SatLink) (f : SatLink → List β)
    (hf : ∀ l, l.up = false → f l = []) :
    flatMapL links f = flatMapL (links.filter (fun l => l.up)) f := by
  induction links with
  | nil => rfl
  | cons l rest ih =>
    cases hl : l.up
    · simp [flatMapL, List.filter_cons, hl, hf l hl, ih]
    · simp [flatMapL, List.filter_cons, hl, ih]

/-- C5: membership of connectedNodes is exactly the union the claim
describes (up-true link endpoints plus the two uplink directions, with
up-false links contributing nothing), and dropping the up-false
satellite links does not change toggle-based rendering. -/
theorem c5_connected_nodes_characterization (s : Snapshot) (n m : String) :
    (m ∈ getConnectedNodes s n ↔
      (∃ l ∈ s.satelliteLinks, l.up = true ∧
        ((l.node1_name = n ∧ l.node2_name = m) ∨ (l.node2_name = n ∧ l.node1_name = m))) ∨
      (∃ g ∈ s.groundUplinks,
        (g.ground_node = n ∧ ∃ u ∈ g.uplinks, u.sat_node = m) ∨
        (g.ground_node = m ∧ ∃ u ∈ g.uplinks, u.sat_node = n))) ∧
    (∀ (tg : Toggles) (scale : ℚ),
      renderLinks s tg none scale =
        renderLinks { s with satelliteLinks := s.satelliteLinks.filter (fun l => l.up) }
          tg none scale) := by
  constructor
  · unfold getConnectedNodes
    rw [mem_groundFold, mem_satFold]
    simp
  · intro tg scale
    have hdraw : ∀ (sc : ℚ) (a b c : String) (o : ℚ),
        drawLink { s with satelliteLinks := s.satelliteLinks.filter (fun l => l.up) }
          sc a b c o = drawLink s sc a b c o := fun _ _ _ _ _ => rfl
    simp only [renderLinks, hdraw]
    congr 1
    split_ifs with hc
    · apply flatMapL_filter_up
      intro l hl
      simp [hl]
    · rfl

theorem mem_flatMapL {α β : Type} (l : List α) (f : α → List β) (b : β) :
    b ∈ flatMapL l f ↔ ∃ a ∈ l, b ∈ f a := by
  induction l with
  | nil => simp [flatMapL]
  | cons x rest ih =>
    simp only [flatMapL]
    constructor
    · intro h
      rcases List.mem_append.mp h with h | h
      · exact ⟨x, by simp, h⟩
      · obtain ⟨a, ha, hb⟩ := ih.mp h
        exact ⟨a, by simp [ha], hb⟩
    · rintro ⟨a, ha, hb⟩
      rcases List.mem_cons.mp ha with rfl | ha2
      · exact List.mem_append.mpr (Or.inl hb)
      · exact List.mem_append.mpr (Or.inr (ih.mpr ⟨a, ha2, hb⟩))

theorem mem_drawLink_attrs (s : Snapshot) (sc : ℚ) (a b c : String) (o : ℚ)
    (seg : Segment) (h : seg ∈ drawLink s sc a b c o) :
    seg.opacity = o ∧ seg.color = c := by
  unfold drawLink at h
  cases h1 : findNode s a <;> rw [h1] at h
  · simp at h
  · cases h2 : findNode s b <;> rw [h2] at h
    · simp at h
    · simp only at h
      split_ifs at h <;> simp at h <;>
        rcases h with rfl | rfl <;> exact ⟨rfl, rfl⟩

theorem drawLink_eval (s : Snapshot) (sc : ℚ) (a b c : String) (o : ℚ)
    (na nb : MapNode) (hf1 : findNode s a = some na) (hf2 : findNode s b = some nb)
    (hno : |(getNodeCoordinates nb mapWidth mapHeight).1 -
      (getNodeCoordinates na mapWidth mapHeight).1| ≤ mapWidth / 2) :
    drawLink s sc a b c o =
      [⟨(getNodeCoordinates na mapWidth mapHeight).1,
        (getNodeCoordinates na mapWidth mapHeight).2,
        (getNodeCoordinates nb mapWidth mapHeight).1,
        (getNodeCoordinates nb mapWidth mapHeight).2, c, o, 2 / sc⟩] := by
  simp only [drawLink, hf1, hf2]
  rw [if_neg (not_lt.mpr hno)]

/-- C4: with a node hovered, the rendered link set does not depend on the
three visibility toggles; it is exactly the drawLink output for the
hovered node against each member of its connection set, and every
emitted segment has full opacity. -/
theorem c4_hover_render_toggle_independent (s : Snapshot) (tg tg2 : Toggles)
    (hov : String) (scale : ℚ) (seg : Segment) :
    renderLinks s tg (some hov) scale = renderLinks s tg2 (some hov) scale ∧
    renderLinks s tg (some hov) scale =
      flatMapL (getConnectedNodes s hov) (fun otherName =>
        drawLink s scale hov otherName (linkColorRule hov otherName) 1) ∧
    (seg ∈ renderLinks s tg (some hov) scale → seg.opacity = 1) := by
  have h2 : renderLinks s tg (some hov) scale =
      flatMapL (getConnectedNodes s hov) (fun otherName =>
        drawLink s scale hov otherName (linkColorRule hov otherName) 1) := rfl
  refine ⟨rfl, h2, ?_⟩
  intro hmem
  rw [h2] at hmem
  obtain ⟨a, ha, hb⟩ := (mem_flatMapL _ _ _).mp hmem
  exact (mem_drawLink_attrs s scale hov a (linkColorRule hov a) 1 seg hb).1

theorem flatMapL_congr {α β : Type} (l : List α) (f g : α → List β)
    (h : ∀ a ∈ l, f a = g a) : flatMapL l f = flatMapL l g := by
  induction l with
  | nil => rfl
  | cons x rest ih =>
    simp only [flatMapL]
    rw [h x (by simp), ih (fun a ha => h a (by simp [ha]))]

/-- C6: on data-model well-formed snapshots (satellite links join
orbital names, uplink groups belong to ground/vessel names), every
branch of renderLinks draws with the colour given by the uniform rule:
ground/vessel endpoint red, same plane id green, different blue. -/
theorem c6_link_color_rule (s : Snapshot) (tg : Toggles) (hov : Option String)
    (scale : ℚ) (hwf : wellFormedSnapshot s) :
    renderLinks s tg hov scale = renderLinksColored s tg hov scale := by
  obtain ⟨hsat, hgnd⟩ := hwf
  cases hov with
  | some hovered => rfl
  | none =>
    simp only [renderLinks, renderLinksColored]
    congr 1
    · split_ifs with hc
      · apply flatMapL_congr
        intro l hl
        obtain ⟨h1, h2, h3, h4⟩ := hsat l hl
        cases hup : l.up with
        | false => simp [hup]
        | true => simp [hup, linkColorRule, h1, h2, h3, h4]
      · rfl
    · split_ifs with hc
      · apply flatMapL_congr
        intro g hg
        apply flatMapL_congr
        intro u hu
        rcases hgnd g hg with h | h <;> simp [linkColorRule, h]
      · rfl

theorem c6_link_color_rule_witness :
    wellFormedSnapshot sampleSnapshot ∧
    renderLinks sampleSnapshot ⟨true, true, true⟩ none 1 =
      renderLinksColored sampleSnapshot ⟨true, true, true⟩ none 1 := by
  have hwf : wellFormedSnapshot sampleSnapshot := by
    unfold wellFormedSnapshot
    exact ⟨by decide, by decide⟩
  exact ⟨hwf, c6_link_color_rule sampleSnapshot ⟨true, true, true⟩ none 1 hwf⟩

theorem c4_hover_render_toggle_independent_witness :
    (⟨400, 0, 480, 0, "#22c55e", 1, 2⟩ : Segment) ∈
      renderLinks sampleSnapshot ⟨false, false, false⟩ (some "R1_A") 1 ∧
    (⟨400, 0, 480, 0, "#22c55e", 1, 2⟩ : Segment).opacity = 1 ∧
    renderLinks sampleSnapshot ⟨false, false, false⟩ (some "R1_A") 1 =
      renderLinks sampleSnapshot ⟨true, true, true⟩ (some "R1_A") 1 := by
  have hconn : getConnectedNodes sampleSnapshot "R1_A" = ["R1_B", "G_X"] := by decide
  have hf1 : findNode sampleSnapshot "R1_A" = some ⟨"R1_A", 90, 0⟩ := by decide
  have hf2 : findNode sampleSnapshot "R1_B" = some ⟨"R1_B", 90, 36⟩ := by decide
  have hf3 : findNode sampleSnapshot "G_X" = some ⟨"G_X", 0, 0⟩ := by decide
  have hd1 : drawLink sampleSnapshot 1 "R1_A" "R1_B" (linkColorRule "R1_A" "R1_B") 1 =
      [⟨400, 0, 480, 0, "#22c55e", 1, 2⟩] := by
    rw [drawLink_eval sampleSnapshot 1 "R1_A" "R1_B" _ 1 _ _ hf1 hf2
      (by norm_num [getNodeCoordinates, mapWidth, mapHeight, abs_le])]
    have hcol : linkColorRule "R1_A" "R1_B" = "#22c55e" := by decide
    norm_num [getNodeCoordinates, mapWidth, mapHeight, hcol]
  have hd2 : drawLink sampleSnapshot 1 "R1_A" "G_X" (linkColorRule "R1_A" "G_X") 1 =
      [⟨400, 0, 400, 200, "#ef4444", 1, 2⟩] := by
    rw [drawLink_eval sampleSnapshot 1 "R1_A" "G_X" _ 1 _ _ hf1 hf3
      (by norm_num [getNodeCoordinates, mapWidth, mapHeight, abs_le])]
    have hcol : linkColorRule "R1_A" "G_X" = "#ef4444" := by decide
    norm_num [getNodeCoordinates, mapWidth, mapHeight, hcol]
  have hrl : renderLinks sampleSnapshot ⟨false, false, false⟩ (some "R1_A") 1 =
      [⟨400, 0, 480, 0, "#22c55e", 1, 2⟩, ⟨400, 0, 400, 200, "#ef4444", 1, 2⟩] := by
    rw [(c4_hover_render_toggle_independent sampleSnapshot ⟨false, false, false⟩
      ⟨true, true, true⟩ "R1_A" 1 ⟨400, 0, 480, 0, "#22c55e", 1, 2⟩).2.1, hconn]
    simp only [flatMapL]
    rw [hd1, hd2]
    rfl
  have hmem : (⟨400, 0, 480, 0, "#22c55e", 1, 2⟩ : Segment) ∈
      renderLinks sampleSnapshot ⟨false, false, false⟩ (some "R1_A") 1 := by
    rw [hrl]
    simp
  exact ⟨hmem,
    (c4_hover_render_toggle_independent sampleSnapshot ⟨false, false, false⟩
      ⟨true, true, true⟩ "R1_A" 1 ⟨400, 0, 480, 0, "#22c55e", 1, 2⟩).2.2 hmem,
    (c4_hover_render_toggle_independent sampleSnapshot ⟨false, false, false⟩
      ⟨true, true, true⟩ "R1_A" 1 ⟨400, 0, 480, 0, "#22c55e", 1, 2⟩).1⟩
